import Mathlib

/-!
Verification development for the flatstar repository (src/flatstar): a shallow
embedding of draw.py, limb_darkening.py and utils.py, and theorems settling the
spec's claims against it.  Machine floats are modelled as exact reals together
with explicit IEEE special values (inf, -inf, nan) where the code's control
flow or numpy's arithmetic rules depend on them; rationals are used wherever
the quantities involved are exactly representable and decidable.
-/

namespace Flatstar

open Classical

/-- Python exception kinds raised by the embedded code paths.  The two
notImplemented messages are the literal strings of draw.py lines 152-153 and
177-178; the spec's UnsupportedLawError / UnsupportedResampleMethodError kinds
correspond to them one-to-one. -/
inductive PyErr where
  | attributeError (attr : String)
  | notImplemented (msg : String)
  | valueError
  | typeError
deriving DecidableEq

/-- Shallow model of a numpy double: a finite value is an exact real, and the
IEEE special values +inf, -inf, nan are explicit constructors.  Finite
arithmetic is modelled as exact real arithmetic; the special values follow the
IEEE-754 rules numpy applies (0 * inf = nan, x - nan = nan, log 0 = -inf, and
so on). -/
inductive F where
  | num : ℝ → F
  | pinf : F
  | ninf : F
  | nan : F

/-- IEEE addition on modelled doubles. -/
noncomputable def F.add : F → F → F
  | .nan, _ => .nan
  | _, .nan => .nan
  | .num x, .num y => .num (x + y)
  | .num _, .pinf => .pinf
  | .num _, .ninf => .ninf
  | .pinf, .num _ => .pinf
  | .ninf, .num _ => .ninf
  | .pinf, .pinf => .pinf
  | .ninf, .ninf => .ninf
  | .pinf, .ninf => .nan
  | .ninf, .pinf => .nan

/-- IEEE subtraction on modelled doubles. -/
noncomputable def F.sub : F → F → F
  | .nan, _ => .nan
  | _, .nan => .nan
  | .num x, .num y => .num (x - y)
  | .num _, .pinf => .ninf
  | .num _, .ninf => .pinf
  | .pinf, .num _ => .pinf
  | .ninf, .num _ => .ninf
  | .pinf, .pinf => .nan
  | .pinf, .ninf => .pinf
  | .ninf, .pinf => .ninf
  | .ninf, .ninf => .nan

/-- IEEE multiplication on modelled doubles; 0 times an infinity is nan. -/
noncomputable def F.mul : F → F → F
  | .nan, _ => .nan
  | _, .nan => .nan
  | .num x, .num y => .num (x * y)
  | .num x, .pinf => if x = 0 then .nan else if 0 < x then .pinf else .ninf
  | .num x, .ninf => if x = 0 then .nan else if 0 < x then .ninf else .pinf
  | .pinf, .num y => if y = 0 then .nan else if 0 < y then .pinf else .ninf
  | .ninf, .num y => if y = 0 then .nan else if 0 < y then .ninf else .pinf
  | .pinf, .pinf => .pinf
  | .pinf, .ninf => .ninf
  | .ninf, .pinf => .ninf
  | .ninf, .ninf => .pinf

/-- IEEE division on modelled doubles; numpy yields inf for x/0 with x > 0,
-inf for x < 0 and nan for 0/0 (emitting only a warning). -/
noncomputable def F.div : F → F → F
  | .nan, _ => .nan
  | _, .nan => .nan
  | .num x, .num y =>
      if y = 0 then (if x = 0 then .nan else if 0 < x then .pinf else .ninf)
      else .num (x / y)
  | .num _, .pinf => .num 0
  | .num _, .ninf => .num 0
  | .pinf, .num y => if 0 ≤ y then .pinf else .ninf
  | .ninf, .num y => if 0 ≤ y then .ninf else .pinf
  | .pinf, .pinf => .nan
  | .pinf, .ninf => .nan
  | .ninf, .pinf => .nan
  | .ninf, .ninf => .nan

/-- Model of numpy.log on doubles: log 0 = -inf, log of a negative value is
nan (numpy warns and continues in both cases). -/
noncomputable def F.nplog : F → F
  | .num x => if x < 0 then .nan else if x = 0 then .ninf else .num (Real.log x)
  | .pinf => .pinf
  | .ninf => .nan
  | .nan => .nan

/-- Model of numpy.exp on doubles. -/
noncomputable def F.npexp : F → F
  | .num x => .num (Real.exp x)
  | .pinf => .pinf
  | .ninf => .num 0
  | .nan => .nan

/-- Model of x ** 0.5 on doubles: nan for a negative base (numpy's rule; the
pipeline only ever applies it to finite nonnegative mu values). -/
noncomputable def F.powHalf : F → F
  | .num x => if x < 0 then .nan else .num (Real.sqrt x)
  | .pinf => .pinf
  | .ninf => .nan
  | .nan => .nan

/-- Model of x ** (3/2) on doubles: x * sqrt x for a nonnegative finite base,
nan for a negative base. -/
noncomputable def F.powThreeHalves : F → F
  | .num x => if x < 0 then .nan else .num (x * Real.sqrt x)
  | .pinf => .pinf
  | .ninf => .nan
  | .nan => .nan

/-- Model of x ** 2 on doubles (Python integer exponent): x * x. -/
noncomputable def F.sq (a : F) : F := F.mul a a

/-- Model of the masked assignment a[a < 0] = 0.0 applied to one cell: IEEE
comparison with nan is false, so nan cells are left alone; -inf is below 0 and
is replaced. -/
noncomputable def F.clampNeg : F → F
  | .num x => if x < 0 then .num 0 else .num x
  | .ninf => .num 0
  | .pinf => .pinf
  | .nan => .nan

/-- Linear limb-darkening law (limb_darkening.py lines 16-41) on modelled
doubles: i0 * (1 - c * (1 - mu)) with i0 = 1, exactly as draw.star calls it. -/
noncomputable def linearF (mu : F) (c : ℝ) : F :=
  F.mul (.num 1) (F.sub (.num 1) (F.mul (.num c) (F.sub (.num 1) mu)))

/-- Quadratic law (limb_darkening.py lines 45-71):
i0 * (1 - c1*(1 - mu) - c2*(1 - mu)**2). -/
noncomputable def quadraticF (mu : F) (c1 c2 : ℝ) : F :=
  F.mul (.num 1)
    (F.sub (F.sub (.num 1) (F.mul (.num c1) (F.sub (.num 1) mu)))
      (F.mul (.num c2) (F.sq (F.sub (.num 1) mu))))

/-- Square-root law (limb_darkening.py lines 75-101):
i0 * (1 - c1*(1 - mu) - c2*(1 - mu**0.5)). -/
noncomputable def square_rootF (mu : F) (c1 c2 : ℝ) : F :=
  F.mul (.num 1)
    (F.sub (F.sub (.num 1) (F.mul (.num c1) (F.sub (.num 1) mu)))
      (F.mul (.num c2) (F.sub (.num 1) (F.powHalf mu))))

/-- Logarithmic law (limb_darkening.py lines 105-131):
i0 * (1 - c1*(1 - mu) - c2 * mu * np.log(mu)**2), with Python's grouping
((c2 * mu) * (log mu)**2). -/
noncomputable def logarithmicF (mu : F) (c1 c2 : ℝ) : F :=
  F.mul (.num 1)
    (F.sub (F.sub (.num 1) (F.mul (.num c1) (F.sub (.num 1) mu)))
      (F.mul (F.mul (.num c2) mu) (F.sq (F.nplog mu))))

/-- Exponential law (limb_darkening.py lines 135-161):
i0 * (1 - c1*(1 - mu) - c2 / (1 - np.exp(mu))). -/
noncomputable def exponentialF (mu : F) (c1 c2 : ℝ) : F :=
  F.mul (.num 1)
    (F.sub (F.sub (.num 1) (F.mul (.num c1) (F.sub (.num 1) mu)))
      (F.div (.num c2) (F.sub (.num 1) (F.npexp mu))))

/-- Sing three-parameter law (limb_darkening.py lines 165-192):
i0 * (1 - c1*(1 - mu) - c2*(1 - mu**(3/2)) - c3*(1 - mu**2)). -/
noncomputable def sing_threeF (mu : F) (c1 c2 c3 : ℝ) : F :=
  F.mul (.num 1)
    (F.sub (F.sub (F.sub (.num 1) (F.mul (.num c1) (F.sub (.num 1) mu)))
        (F.mul (.num c2) (F.sub (.num 1) (F.powThreeHalves mu))))
      (F.mul (.num c3) (F.sub (.num 1) (F.sq mu))))

/-- Claret four-parameter law (limb_darkening.py lines 196-223):
i0 * (1 - c1*(1 - mu**0.5) - c2*(1 - mu) - c3*(1 - mu**(3/2)) - c4*(1 - mu**2)). -/
noncomputable def claret_fourF (mu : F) (c1 c2 c3 c4 : ℝ) : F :=
  F.mul (.num 1)
    (F.sub (F.sub (F.sub (F.sub (.num 1)
            (F.mul (.num c1) (F.sub (.num 1) (F.powHalf mu))))
          (F.mul (.num c2) (F.sub (.num 1) mu)))
        (F.mul (.num c3) (F.sub (.num 1) (F.powThreeHalves mu))))
      (F.mul (.num c4) (F.sub (.num 1) (F.sq mu))))

/-- Coefficient payload passed as ld_coefficient: None, a scalar (linear law)
or an array-like that the laws unpack positionally (c1, c2 = c and so on);
a wrong arity surfaces as a generic unpacking failure (spec section 7),
modelled uniformly as valueError. -/
inductive LDCoef where
  | noCoef
  | scalar (c : ℝ)
  | pair (c1 c2 : ℝ)
  | triple (c1 c2 c3 : ℝ)
  | quad (c1 c2 c3 c4 : ℝ)

/-- Key set of the IMPLEMENTED_LD_LAW dictionary (draw.py lines 17-29). -/
def IMPLEMENTED_LD_LAW_KEYS : List String :=
  ["linear", "quadratic", "square-root", "log", "logarithmic", "exp",
   "exponential", "sing", "sing-three", "s3", "claret", "claret-four", "c4"]

/-- Key set of the RESAMPLING_ALIAS dictionary (draw.py lines 31-33). -/
def RESAMPLING_ALIAS_KEYS : List String :=
  ["nearest", "box", "bilinear", "hamming", "bicubic", "lanczos"]

/-- Dictionary lookup IMPLEMENTED_LD_LAW[name] followed by the law call
(draw.py lines 148-153): an unknown key raises KeyError, which the source
catches and converts to NotImplementedError with the quoted message. -/
noncomputable def lawApply (name : String) (c : LDCoef) : Except PyErr (F → F) :=
  if name = "linear" then
    match c with
    | .scalar c1 => .ok fun mu => linearF mu c1
    | _ => .error .valueError
  else if name = "quadratic" then
    match c with
    | .pair c1 c2 => .ok fun mu => quadraticF mu c1 c2
    | _ => .error .valueError
  else if name = "square-root" then
    match c with
    | .pair c1 c2 => .ok fun mu => square_rootF mu c1 c2
    | _ => .error .valueError
  else if name = "log" ∨ name = "logarithmic" then
    match c with
    | .pair c1 c2 => .ok fun mu => logarithmicF mu c1 c2
    | _ => .error .valueError
  else if name = "exp" ∨ name = "exponential" then
    match c with
    | .pair c1 c2 => .ok fun mu => exponentialF mu c1 c2
    | _ => .error .valueError
  else if name = "sing" ∨ name = "sing-three" ∨ name = "s3" then
    match c with
    | .triple c1 c2 c3 => .ok fun mu => sing_threeF mu c1 c2 c3
    | _ => .error .valueError
  else if name = "claret" ∨ name = "claret-four" ∨ name = "c4" then
    match c with
    | .quad c1 c2 c3 c4 => .ok fun mu => claret_fourF mu c1 c2 c3 c4
    | _ => .error .valueError
  else .error (.notImplemented "This limb-darkening law is not implemented.")

/-- Python 3 round() of an exactly represented value: nearest integer with
ties going to the even neighbour. -/
def pythonRound (q : ℚ) : ℤ :=
  if q - ⌊q⌋ < 1/2 then ⌊q⌋
  else if (1 : ℚ)/2 < q - ⌊q⌋ then ⌊q⌋ + 1
  else if 2 ∣ ⌊q⌋ then ⌊q⌋ else ⌊q⌋ + 1

/-- Effective working grid size of draw.star (draw.py lines 111-117):
int(round(supersampling * grid_size)) when supersampling is given, else
int(grid_size // upscaling), else grid_size itself. -/
def effectiveGridSize (grid_size : ℕ) (supersampling upscaling : Option ℚ) : ℤ :=
  match supersampling with
  | some s => pythonRound (s * grid_size)
  | none =>
    match upscaling with
    | some u => ⌊(grid_size : ℚ) / u⌋
    | none => grid_size

/-- Element k of numpy.linspace(-c, c, n) as an exact rational:
-c + k * (2c / (n - 1)), and just -c when n = 1. -/
def linspaceQ (c : ℚ) (n : ℕ) (k : ℕ) : ℚ :=
  if n = 1 then (-c : ℚ) else (-c : ℚ) + k * ((2 * c : ℚ) / ((n : ℚ) - 1))

/-- Squared entry (i, j) of utils.cylindrical_r (utils.py lines 59-88) on a
grid of shape (nx, ny) with reference (rx, ry).  np.meshgrid(a, b) with
len a = nx, len b = ny produces arrays of shape (ny, nx) with
map_x[i][j] = a[j] and map_y[i][j] = b[i], so the output matrix is indexed
i < ny, j < nx (transposed relative to the input shape). -/
def cylR_sq (nx ny : ℕ) (rx ry : ℚ) (i j : ℕ) : ℚ :=
  (linspaceQ (nx / 2 : ℕ) nx j - rx) ^ 2 + (linspaceQ (ny / 2 : ℕ) ny i - ry) ^ 2

/-- Entry (i, j) of utils.cylindrical_r: the square root of cylR_sq (the code
computes (map_x**2 + map_y**2)**0.5; the radicand is nonnegative, so the
float power is an ordinary square root). -/
noncomputable def cylindrical_r (nx ny : ℕ) (rx ry : ℚ) (i j : ℕ) : ℝ :=
  Real.sqrt ((cylR_sq nx ny rx ry i j : ℚ) : ℝ)

/-- Squared radial distance of cell (i, j) from the grid centre for the square
working grid: draw.py line 129 calls utils.cylindrical_r on the star array with
the default reference (0, 0). -/
def rsq (n : ℕ) (i j : ℕ) : ℚ := cylR_sq n n 0 0 i j

/-- Value of the _disk cell (i, j) for the star disk: centre (n//2, n//2),
radius = radius * n, fill value 1.0 (draw.py lines 120-124).  The PIL
rasterizer is an external library; following spec section 4.2 it is modelled
as: a cell is filled exactly when its Euclidean distance from the centre is at
most the radius. -/
def starCell (n : ℕ) (radius : ℚ) (i j : ℕ) : ℚ :=
  if ((i : ℚ) - (n / 2 : ℕ)) ^ 2 + ((j : ℚ) - (n / 2 : ℕ)) ^ 2 ≤ (radius * n) ^ 2
  then 1 else 0

/-- Mu field of draw.star (draw.py lines 134-137):
mu = (1 - (r / star_radius)**2)**0.5 with the NaN cells (negative radicand,
i.e. cells outside the disk) then replaced by 0.  Faithful to the float
computation whenever star_radius ≠ 0 (the claims' scope); rational division by
zero would silently follow the 0-convention instead of producing NaN. -/
noncomputable def muR (n : ℕ) (radius : ℚ) (i j : ℕ) : ℝ :=
  if 1 - rsq n i j / (radius * n) ^ 2 < 0 then 0
  else Real.sqrt ((1 - rsq n i j / (radius * n) ^ 2 : ℚ) : ℝ)

/-- Row-major list of the cells of an n-by-n grid of values. -/
def cellsList {α : Type} (n : ℕ) (f : ℕ → ℕ → α) : List α :=
  (List.range n).flatMap fun i => (List.range n).map fun j => f i j

/-- Model of np.sum over the n-by-n grid (the summation order is immaterial to
every property proved here: real addition is commutative and a nan poisons the
sum in any order). -/
noncomputable def gridSum (n : ℕ) (f : ℕ → ℕ → F) : F :=
  (cellsList n f).foldr F.add (.num 0)

/-- Model of utils.StarGrid (utils.py lines 12-54): exactly the attributes
__init__ assigns, plus the two attributes draw.planet_transit would create
dynamically (draw.py lines 254 and 256), modelled as Options that are none
until assigned.  Note the container defines radius_px (utils.py line 43) and
never an attribute named radius; draw.star passes its radius argument (a
fraction of the grid size) into the radius_px slot (draw.py lines 165, 190).
The field planet_to_star_ratio_attr models the Python attribute
planet_to_star_ratio and phase_attr models the attribute phase. -/
structure StarGridF where
  intensity : ℕ → ℕ → F
  size : ℕ
  radius_px : ℚ
  limb_darkening_law : Option String
  ld_coefficients : LDCoef
  supersampling_factor : Option ℚ
  upscaling_factor : Option ℚ
  resample_method : Option String
  planet_px_coordinates : Option (ℝ × ℝ)
  planet_radius_px : Option ℝ
  planet_impact_parameter : Option ℝ
  planet_phase : Option ℝ
  planet_to_star_ratio_attr : Option ℝ
  phase_attr : Option ℝ

/-- Star disk occupancy array of draw.star (draw.py lines 120-124) as modelled
doubles. -/
noncomputable def starArrDef (n : ℕ) (radius : ℚ) : ℕ → ℕ → F :=
  fun i j => .num ((starCell n radius i j : ℚ) : ℝ)

/-- Mu array of draw.star (draw.py lines 134-137) as modelled doubles. -/
noncomputable def muArrDef (n : ℕ) (radius : ℚ) : ℕ → ℕ → F :=
  fun i j => .num (muR n radius i j)

/-- Limb-darkening dispatch stage of draw.star (draw.py lines 139-153): law
None skips attenuation, the value "custom" calls the user callable (calling a
missing callable is a TypeError), any other name goes through the
IMPLEMENTED_LD_LAW dictionary. -/
noncomputable def ldStage (law : Option String) (custom : Option (F → LDCoef → F))
    (coef : LDCoef) (starArr muArr : ℕ → ℕ → F) : Except PyErr (ℕ → ℕ → F) :=
  match law with
  | none => .ok starArr
  | some name =>
    if name = "custom" then
      match custom with
      | some f => .ok fun i j => F.mul (starArr i j) (f (muArr i j) coef)
      | none => .error .typeError
    else
      match lawApply name coef with
      | .ok f => .ok fun i j => F.mul (starArr i j) (f (muArr i j))
      | .error e => .error e

/-- Model of draw.star (draw.py lines 37-193).  resizeF is the external PIL
resize collaborator (spec section 9 treats resampling as an external
capability): it receives the method name, the source array, the source size
and the target size.  The normalization divides by the grid's own sum, after
the resize on the resize path and directly otherwise. -/
noncomputable def starRun (grid_size : ℕ) (radius : ℚ) (law : Option String)
    (coef : LDCoef) (custom : Option (F → LDCoef → F))
    (supersampling upscaling : Option ℚ) (resample_method : Option String)
    (resizeF : String → (ℕ → ℕ → F) → ℕ → ℕ → (ℕ → ℕ → F)) :
    Except PyErr StarGridF :=
  let n : ℕ := (effectiveGridSize grid_size supersampling upscaling).toNat
  match ldStage law custom coef (starArrDef n radius) (muArrDef n radius) with
  | .error e => .error e
  | .ok arr =>
    match supersampling, upscaling with
    | none, none =>
      let norm := gridSum n arr
      .ok { intensity := fun i j => F.div (arr i j) norm
            size := n
            radius_px := radius
            limb_darkening_law := law
            ld_coefficients := coef
            supersampling_factor := none
            upscaling_factor := none
            resample_method := resample_method
            planet_px_coordinates := none
            planet_radius_px := none
            planet_impact_parameter := none
            planet_phase := none
            planet_to_star_ratio_attr := none
            phase_attr := none }
    | _, _ =>
      match resample_method with
      | some m =>
        if m ∈ RESAMPLING_ALIAS_KEYS then
          let final := resizeF m arr n grid_size
          let norm := gridSum grid_size final
          .ok { intensity := fun i j => F.div (final i j) norm
                size := grid_size
                radius_px := radius
                limb_darkening_law := law
                ld_coefficients := coef
                supersampling_factor := supersampling
                upscaling_factor := upscaling
                resample_method := some m
                planet_px_coordinates := none
                planet_radius_px := none
                planet_impact_parameter := none
                planet_phase := none
                planet_to_star_ratio_attr := none
                phase_attr := none }
        else .error (.notImplemented "This resampling method is not implemented.")
      | none =>
        let final := resizeF "box" arr n grid_size
        let norm := gridSum grid_size final
        .ok { intensity := fun i j => F.div (final i j) norm
              size := grid_size
              radius_px := radius
              limb_darkening_law := law
              ld_coefficients := coef
              supersampling_factor := supersampling
              upscaling_factor := upscaling
              resample_method := some "box"
              planet_px_coordinates := none
              planet_radius_px := none
              planet_impact_parameter := none
              planet_phase := none
              planet_to_star_ratio_attr := none
              phase_attr := none }

/-- Model of draw.planet_transit (draw.py lines 197-257).  Line 227 reads
star_grid.radius, but utils.StarGrid defines radius_px (utils.py line 43) and
no code in the repository ever assigns an attribute named radius, so the
lookup raises AttributeError before any other work: the function fails on
every container the library constructs. -/
def planet_transit (_star_grid : StarGridF) (_rp_rs _b _phase_arg : ℝ) :
    Except PyErr StarGridF :=
  .error (.attributeError "radius")

/-- Intended draw.planet_transit: identical to draw.py lines 222-257 except
that line 227's star_grid.radius is read as the container's stored radius
field (the fraction-of-grid-size value draw.star stores in the radius_px
slot), which is what the spec, the container's own transit-field comments
(utils.py lines 50-54) and the repository's test suite presuppose.  The beta
radicand's float power (x ** 0.5) is modelled by Real.sqrt, faithful whenever
the radicand is nonnegative; the planet disk follows the spec section 4.2
rasterizer model with PIL's (x, y) = (column, row) convention. -/
noncomputable def planet_transitIntended (sg : StarGridF) (rp_rs b phase_arg : ℝ) :
    StarGridF :=
  let n := sg.size
  let star_radius : ℝ := (sg.radius_px : ℝ) * n
  let planet_radius := star_radius * rp_rs
  let y_p : ℝ := b * star_radius + ((n / 2 : ℕ) : ℝ)
  let beta := Real.sqrt (1 - (b * star_radius / (planet_radius + star_radius)) ^ 2)
  let alpha := ((n / 2 : ℕ) : ℝ) - (planet_radius + star_radius) * beta
  let x_p := alpha + (phase_arg + 1/2) * 2 * (planet_radius + star_radius) * beta
  let planet : ℕ → ℕ → ℝ := fun i j =>
    if ((j : ℝ) - x_p) ^ 2 + ((i : ℝ) - y_p) ^ 2 ≤ planet_radius ^ 2 then 1 else 0
  { sg with
    intensity := fun i j => F.clampNeg (F.sub (sg.intensity i j) (.num (planet i j)))
    planet_px_coordinates := some (x_p, y_p)
    planet_to_star_ratio_attr := some rp_rs
    planet_impact_parameter := some b
    phase_attr := some phase_arg }

/-- Container state the caller observes after a call that may raise: Python
mutates the object in place, and planet_transit's AttributeError (draw.py line
227) is raised before its first assignment (lines 252-256), so on error the
container is exactly as it was. -/
def stateAfter (sg : StarGridF) : Except PyErr StarGridF → StarGridF
  | .ok sg' => sg'
  | .error _ => sg

/-- Trivial resize stand-in used on paths that never resize. -/
def dummyResize : String → (ℕ → ℕ → F) → ℕ → ℕ → (ℕ → ℕ → F) :=
  fun _ f _ _ => f

/-- Spec-side formula of claim C3: the squared distance the claim asserts for
cell (i, j) of a shape (rows, cols) grid with reference (0, 0), namely
(i - rows//2)^2 + (j - cols//2)^2. -/
def claimC3_sq (rows cols : ℕ) (i j : ℕ) : ℚ :=
  ((i : ℚ) - ((rows / 2 : ℕ) : ℚ)) ^ 2 + ((j : ℚ) - ((cols / 2 : ℕ) : ℚ)) ^ 2

/-- Claim-side property for C2: a grid total that is a finite number within
1e-6 of 1. -/
def sumNearOne (t : F) : Prop := ∃ s : ℝ, t = F.num s ∧ |s - 1| ≤ 1/1000000

/-- Claim-side property for C2: every cell of the n-by-n grid holds a finite
number (no NaN, no infinity). -/
def allFiniteGrid (n : ℕ) (g : ℕ → ℕ → F) : Prop :=
  ∀ i j : ℕ, i < n → j < n → ∃ x : ℝ, g i j = F.num x

/-- Built-in limb-darkening configurations whose attenuation stays a finite
real on the whole mu field: every built-in law except the logarithmic and
exponential ones, plus the no-limb-darkening case, each packaged with its
coefficients. -/
inductive GoodLaw where
  | noLD
  | lin (c : ℝ)
  | quad (c1 c2 : ℝ)
  | sqrtL (c1 c2 : ℝ)
  | sing3 (c1 c2 c3 : ℝ)
  | claret4 (c1 c2 c3 c4 : ℝ)

/-- Law-name argument draw.star receives for a GoodLaw. -/
def GoodLaw.lawName : GoodLaw → Option String
  | .noLD => none
  | .lin _ => some "linear"
  | .quad _ _ => some "quadratic"
  | .sqrtL _ _ => some "square-root"
  | .sing3 _ _ _ => some "sing-three"
  | .claret4 _ _ _ _ => some "claret-four"

/-- Coefficient argument draw.star receives for a GoodLaw. -/
def GoodLaw.coef : GoodLaw → LDCoef
  | .noLD => .noCoef
  | .lin c => .scalar c
  | .quad c1 c2 => .pair c1 c2
  | .sqrtL c1 c2 => .pair c1 c2
  | .sing3 c1 c2 c3 => .triple c1 c2 c3
  | .claret4 c1 c2 c3 c4 => .quad c1 c2 c3 c4

/-- Real-level attenuation factor of a GoodLaw at a given mu: the value the
float formulas of limb_darkening.py compute on a finite nonnegative mu. -/
noncomputable def GoodLaw.attenR : GoodLaw → ℝ → ℝ
  | .noLD => fun _ => 1
  | .lin c => fun mu => 1 * (1 - c * (1 - mu))
  | .quad c1 c2 => fun mu => 1 * (1 - c1 * (1 - mu) - c2 * ((1 - mu) * (1 - mu)))
  | .sqrtL c1 c2 => fun mu => 1 * (1 - c1 * (1 - mu) - c2 * (1 - Real.sqrt mu))
  | .sing3 c1 c2 c3 => fun mu =>
      1 * (1 - c1 * (1 - mu) - c2 * (1 - mu * Real.sqrt mu) - c3 * (1 - mu * mu))
  | .claret4 c1 c2 c3 c4 => fun mu =>
      1 * (1 - c1 * (1 - Real.sqrt mu) - c2 * (1 - mu) - c3 * (1 - mu * Real.sqrt mu) -
        c4 * (1 - mu * mu))

/-- Real-level row-major total of an n-by-n grid of reals. -/
def realGridSum (n : ℕ) (v : ℕ → ℕ → ℝ) : ℝ := (cellsList n v).sum

/-- Concrete 3-by-3 uniform container, as draw.star would describe a tiny
no-limb-darkening render (used for concrete instances of the transit claims). -/
noncomputable def unitGrid : StarGridF :=
  { intensity := fun _ _ => .num 1
    size := 3
    radius_px := 1/2
    limb_darkening_law := none
    ld_coefficients := .noCoef
    supersampling_factor := none
    upscaling_factor := none
    resample_method := none
    planet_px_coordinates := none
    planet_radius_px := none
    planet_impact_parameter := none
    planet_phase := none
    planet_to_star_ratio_attr := none
    phase_attr := none }

/-- Concrete 4-by-4 uniform container (even grid size). -/
noncomputable def evenGrid : StarGridF :=
  { intensity := fun _ _ => .num 1
    size := 4
    radius_px := 1/2
    limb_darkening_law := none
    ld_coefficients := .noCoef
    supersampling_factor := none
    upscaling_factor := none
    resample_method := none
    planet_px_coordinates := none
    planet_radius_px := none
    planet_impact_parameter := none
    planet_phase := none
    planet_to_star_ratio_attr := none
    phase_attr := none }

/-! Helper lemmas about the modelled float operations. -/

/-- Subtracting nan yields nan, whatever the left operand. -/
@[simp] lemma F.sub_nan (a : F) : F.sub a .nan = .nan := by cases a <;> rfl

/-- Multiplying by nan on the right yields nan. -/
@[simp] lemma F.mul_nan (a : F) : F.mul a .nan = .nan := by cases a <;> rfl

/-- Multiplying by nan on the left yields nan. -/
@[simp] lemma F.nan_mul (a : F) : F.mul .nan a = .nan := by cases a <;> rfl

/-- Adding nan on the right yields nan. -/
@[simp] lemma F.add_nan (a : F) : F.add a .nan = .nan := by cases a <;> rfl

/-- Adding nan on the left yields nan. -/
@[simp] lemma F.nan_add (a : F) : F.add .nan a = .nan := by cases a <;> rfl

/-- Dividing by nan yields nan. -/
@[simp] lemma F.div_nan (a : F) : F.div a .nan = .nan := by cases a <;> rfl

/-- Finite subtraction is exact real subtraction. -/
@[simp] lemma F.sub_num (x y : ℝ) : F.sub (.num x) (.num y) = .num (x - y) := rfl

/-- Finite addition is exact real addition. -/
@[simp] lemma F.add_num (x y : ℝ) : F.add (.num x) (.num y) = .num (x + y) := rfl

/-- Finite multiplication is exact real multiplication. -/
@[simp] lemma F.mul_num (x y : ℝ) : F.mul (.num x) (.num y) = .num (x * y) := rfl

/-- Finite division with a nonzero denominator is exact real division. -/
lemma F.div_num (x y : ℝ) (hy : y ≠ 0) : F.div (.num x) (.num y) = .num (x / y) := by
  show (if y = 0 then (if x = 0 then F.nan else if 0 < x then F.pinf else F.ninf)
      else F.num (x / y)) = F.num (x / y)
  rw [if_neg hy]

/-- Zero times +inf is nan. -/
lemma F.zero_mul_pinf (x : ℝ) (hx : x = 0) : F.mul (.num x) .pinf = .nan := by
  show (if x = 0 then F.nan else if 0 < x then F.pinf else F.ninf) = F.nan
  rw [if_pos hx]

/-- Zero times -inf is nan. -/
lemma F.zero_mul_ninf (x : ℝ) (hx : x = 0) : F.mul (.num x) .ninf = .nan := by
  show (if x = 0 then F.nan else if 0 < x then F.ninf else F.pinf) = F.nan
  rw [if_pos hx]

/-- Dividing a positive finite value by zero yields +inf. -/
lemma F.pos_div_zero (x y : ℝ) (hy : y = 0) (hx : 0 < x) :
    F.div (.num x) (.num y) = .pinf := by
  show (if y = 0 then (if x = 0 then F.nan else if 0 < x then F.pinf else F.ninf)
      else F.num (x / y)) = F.pinf
  rw [if_pos hy, if_neg (ne_of_gt hx), if_pos hx]

/-- Log of finite zero is -inf. -/
lemma F.nplog_zero (x : ℝ) (hx : x = 0) : F.nplog (.num x) = .ninf := by
  show (if x < 0 then F.nan else if x = 0 then F.ninf else F.num (Real.log x)) = F.ninf
  rw [if_neg (by rw [hx]; exact lt_irrefl (0 : ℝ)), if_pos hx]

/-- Squaring -inf gives +inf. -/
@[simp] lemma F.sq_ninf : F.sq .ninf = .pinf := rfl

/-- Exponential of a finite value is finite. -/
@[simp] lemma F.npexp_num (x : ℝ) : F.npexp (.num x) = .num (Real.exp x) := rfl

/-- Half power of a finite nonnegative value is its square root. -/
lemma F.powHalf_num (x : ℝ) (hx : 0 ≤ x) : F.powHalf (.num x) = .num (Real.sqrt x) := by
  show (if x < 0 then F.nan else F.num (Real.sqrt x)) = F.num (Real.sqrt x)
  rw [if_neg (not_lt.2 hx)]

/-- Three-halves power of a finite nonnegative value is x * sqrt x. -/
lemma F.powThreeHalves_num (x : ℝ) (hx : 0 ≤ x) :
    F.powThreeHalves (.num x) = .num (x * Real.sqrt x) := by
  show (if x < 0 then F.nan else F.num (x * Real.sqrt x)) = F.num (x * Real.sqrt x)
  rw [if_neg (not_lt.2 hx)]

/-- The constructors num and nan are distinct. -/
lemma F.nan_ne_num (x : ℝ) : F.nan ≠ F.num x := by intro h; cases h

/-- Folding F.add over a list containing nan gives nan. -/
lemma foldr_add_nan (l : List F) (h : F.nan ∈ l) : l.foldr F.add (.num 0) = .nan := by
  induction l with
  | nil => cases h
  | cons a t ih =>
    rcases List.mem_cons.1 h with rfl | ht
    · rw [List.foldr_cons]; exact F.nan_add _
    · rw [List.foldr_cons, ih ht]; exact F.add_nan _

/-- Folding F.add over a list of finite values is the finite sum. -/
lemma foldr_add_map_num (l : List ℝ) :
    (l.map F.num).foldr F.add (.num 0) = .num l.sum := by
  induction l with
  | nil => simp
  | cons a t ih => simp [List.foldr_cons, ih]

/-- Composing the cell function with a map commutes with cellsList. -/
lemma cellsList_comp {α β : Type} (n : ℕ) (f : ℕ → ℕ → α) (g : α → β) :
    cellsList n (fun i j => g (f i j)) = (cellsList n f).map g := by
  unfold cellsList
  rw [List.map_flatMap]
  simp [List.map_map, Function.comp_def]

/-- Membership of a cell value in the row-major cell list. -/
lemma mem_cellsList {α : Type} (n : ℕ) (f : ℕ → ℕ → α) (i j : ℕ)
    (hi : i < n) (hj : j < n) : f i j ∈ cellsList n f := by
  unfold cellsList
  exact List.mem_flatMap.2 ⟨i, List.mem_range.2 hi,
    List.mem_map.2 ⟨j, List.mem_range.2 hj, rfl⟩⟩

/-- Every member of the cell list is a cell value. -/
lemma cellsList_forall {α : Type} (n : ℕ) (f : ℕ → ℕ → α) (P : α → Prop)
    (h : ∀ i j, i < n → j < n → P (f i j)) : ∀ x ∈ cellsList n f, P x := by
  intro x hx
  unfold cellsList at hx
  obtain ⟨i, hi, hx⟩ := List.mem_flatMap.1 hx
  obtain ⟨j, hj, rfl⟩ := List.mem_map.1 hx
  exact h i j (List.mem_range.1 hi) (List.mem_range.1 hj)

/-- Grid sum of a grid of finite values. -/
lemma gridSum_num (n : ℕ) (f : ℕ → ℕ → F) (v : ℕ → ℕ → ℝ)
    (h : ∀ i j, f i j = .num (v i j)) : gridSum n f = .num (realGridSum n v) := by
  have hf : f = fun i j => F.num (v i j) := funext fun i => funext fun j => h i j
  subst hf
  unfold gridSum realGridSum
  rw [show (cellsList n fun i j => F.num (v i j)) = (cellsList n v).map F.num from
    cellsList_comp n v F.num]
  exact foldr_add_map_num _

/-- Grid sum of a grid holding nan somewhere is nan. -/
lemma gridSum_eq_nan (n : ℕ) (f : ℕ → ℕ → F) (i j : ℕ) (hi : i < n) (hj : j < n)
    (h : f i j = F.nan) : gridSum n f = F.nan := by
  unfold gridSum
  exact foldr_add_nan _ (h ▸ mem_cellsList n f i j hi hj)

/-- Dividing each cell by a nonzero constant divides the real grid sum. -/
lemma realGridSum_div (n : ℕ) (v : ℕ → ℕ → ℝ) (S : ℝ) :
    realGridSum n (fun i j => v i j / S) = realGridSum n v / S := by
  unfold realGridSum
  rw [show (cellsList n fun i j => v i j / S) = (cellsList n v).map (· / S) from
    cellsList_comp n v (· / S)]
  induction cellsList n v with
  | nil => simp
  | cons a t ih => simp [add_div, ih]

/-- A nonnegative grid's sum dominates each single cell. -/
lemma cell_le_realGridSum (n : ℕ) (v : ℕ → ℕ → ℝ)
    (hnn : ∀ i j, 0 ≤ v i j) (i j : ℕ) (hi : i < n) (hj : j < n) :
    v i j ≤ realGridSum n v :=
  List.single_le_sum (cellsList_forall n v (0 ≤ ·) fun i j _ _ => hnn i j) _
    (mem_cellsList n v i j hi hj)

/-! Geometry lemmas for the distance and mu fields. -/

/-- Squared radial distances are nonnegative. -/
lemma cylR_sq_nonneg (nx ny : ℕ) (rx ry : ℚ) (i j : ℕ) :
    0 ≤ cylR_sq nx ny rx ry i j := by
  unfold cylR_sq; positivity

/-- Squared star-grid radial distances are nonnegative. -/
lemma rsq_nonneg (n i j : ℕ) : 0 ≤ rsq n i j := cylR_sq_nonneg n n 0 0 i j

/-- Mu values are nonnegative. -/
lemma muR_nonneg (n : ℕ) (radius : ℚ) (i j : ℕ) : 0 ≤ muR n radius i j := by
  unfold muR; split
  · exact le_rfl
  · exact Real.sqrt_nonneg _

/-- Mu values never exceed 1. -/
lemma muR_le_one (n : ℕ) (radius : ℚ) (i j : ℕ) : muR n radius i j ≤ 1 := by
  unfold muR; split
  · exact zero_le_one
  · calc Real.sqrt ((1 - rsq n i j / (radius * n) ^ 2 : ℚ) : ℝ)
        ≤ Real.sqrt 1 := by
          apply Real.sqrt_le_sqrt
          have h1 : (0 : ℚ) ≤ rsq n i j / (radius * n) ^ 2 :=
            div_nonneg (rsq_nonneg n i j) (sq_nonneg _)
          have : ((1 - rsq n i j / (radius * n) ^ 2 : ℚ) : ℝ) ≤ ((1 : ℚ) : ℝ) := by
            exact_mod_cast by linarith
          simpa using this
      _ = 1 := Real.sqrt_one

/-- On numpy.linspace(-c, c, n) with odd n and c = n // 2, the points are the
integers k - c exactly (the step 2c/(n - 1) is exactly 1). -/
lemma linspaceQ_odd (n k : ℕ) (hodd : Odd n) (hk : k < n) :
    linspaceQ ((n / 2 : ℕ) : ℚ) n k = (k : ℚ) - ((n / 2 : ℕ) : ℚ) := by
  obtain ⟨c, hc⟩ := hodd
  have hdiv : n / 2 = c := by omega
  rw [hdiv]
  by_cases h1 : n = 1
  · have hc0 : c = 0 := by omega
    have hk0 : k = 0 := by omega
    subst hc0; subst hk0
    simp [linspaceQ, h1]
  · have hcpos : 0 < c := by omega
    have hnc : n = 2 * c + 1 := by omega
    have hn' : (n : ℚ) - 1 = 2 * (c : ℚ) := by
      have : (n : ℚ) = 2 * (c : ℚ) + 1 := by exact_mod_cast hnc
      rw [this]; ring
    have h2c : (2 * (c : ℚ)) ≠ 0 := by positivity
    unfold linspaceQ
    rw [if_neg h1, hn', div_self h2c, mul_one]
    ring

/-- The centre cell of an odd square grid is at distance zero. -/
lemma rsq_center (n : ℕ) (hodd : Odd n) : rsq n (n / 2) (n / 2) = 0 := by
  have hn : 0 < n := by obtain ⟨c, hc⟩ := hodd; omega
  have h := linspaceQ_odd n (n / 2) hodd (Nat.div_lt_self hn one_lt_two)
  unfold rsq cylR_sq
  rw [h]
  ring

/-- The centre cell of an odd grid has mu exactly 1. -/
lemma muR_center (n : ℕ) (hodd : Odd n) (radius : ℚ) :
    muR n radius (n / 2) (n / 2) = 1 := by
  unfold muR
  rw [rsq_center n hodd]
  norm_num

/-- Disk occupancy values are nonnegative. -/
lemma starCell_nonneg (n : ℕ) (radius : ℚ) (i j : ℕ) :
    0 ≤ starCell n radius i j := by
  unfold starCell; split <;> norm_num

/-- The centre cell of the grid lies inside the star disk. -/
lemma starCell_center (n : ℕ) (radius : ℚ) :
    starCell n radius (n / 2) (n / 2) = 1 := by
  unfold starCell
  rw [if_pos (by simp; positivity)]

/-! Bridge lemmas: the float law formulas on a finite nonnegative mu compute
the real attenuation values. -/

/-- Linear law on a finite mu. -/
lemma linearF_num (m c : ℝ) : linearF (.num m) c = .num ((GoodLaw.lin c).attenR m) := rfl

/-- Quadratic law on a finite mu. -/
lemma quadraticF_num (m c1 c2 : ℝ) :
    quadraticF (.num m) c1 c2 = .num ((GoodLaw.quad c1 c2).attenR m) := rfl

/-- Square-root law on a finite nonnegative mu. -/
lemma square_rootF_num (m c1 c2 : ℝ) (hm : 0 ≤ m) :
    square_rootF (.num m) c1 c2 = .num ((GoodLaw.sqrtL c1 c2).attenR m) := by
  unfold square_rootF
  rw [F.powHalf_num m hm]
  rfl

/-- Sing three-parameter law on a finite nonnegative mu. -/
lemma sing_threeF_num (m c1 c2 c3 : ℝ) (hm : 0 ≤ m) :
    sing_threeF (.num m) c1 c2 c3 = .num ((GoodLaw.sing3 c1 c2 c3).attenR m) := by
  unfold sing_threeF
  rw [F.powThreeHalves_num m hm]
  rfl

/-- Claret four-parameter law on a finite nonnegative mu. -/
lemma claret_fourF_num (m c1 c2 c3 c4 : ℝ) (hm : 0 ≤ m) :
    claret_fourF (.num m) c1 c2 c3 c4 = .num ((GoodLaw.claret4 c1 c2 c3 c4).attenR m) := by
  unfold claret_fourF
  rw [F.powHalf_num m hm, F.powThreeHalves_num m hm]
  rfl

/-- Every GoodLaw attenuation is exactly 1 at mu = 1 (all the bracketed terms
of the formulas vanish at the disk centre). -/
lemma GoodLaw.attenR_one (L : GoodLaw) : L.attenR 1 = 1 := by
  cases L <;> simp [GoodLaw.attenR, Real.sqrt_one]

/-- Reduction of draw.star on the no-resizing path (draw.py lines 160-168):
the working size is the requested size and the normalized attenuated array is
wrapped directly. -/
lemma starRun_noResize (grid_size : ℕ) (radius : ℚ) (law : Option String)
    (coef : LDCoef) (custom : Option (F → LDCoef → F)) (rm : Option String)
    (rz : String → (ℕ → ℕ → F) → ℕ → ℕ → (ℕ → ℕ → F)) (arr : ℕ → ℕ → F)
    (hld : ldStage law custom coef (starArrDef grid_size radius)
        (muArrDef grid_size radius) = .ok arr) :
    starRun grid_size radius law coef custom none none rm rz =
      .ok { intensity := fun i j => F.div (arr i j) (gridSum grid_size arr)
            size := grid_size
            radius_px := radius
            limb_darkening_law := law
            ld_coefficients := coef
            supersampling_factor := none
            upscaling_factor := none
            resample_method := rm
            planet_px_coordinates := none
            planet_radius_px := none
            planet_impact_parameter := none
            planet_phase := none
            planet_to_star_ratio_attr := none
            phase_attr := none } := by
  have hn : (effectiveGridSize grid_size none none).toNat = grid_size := rfl
  simp only [starRun, hn]
  rw [hld]

/-! Claim theorems. -/

/-- Claim C9: star computes its effective working size as
round(supersampling * grid_size) when supersampling is set (supersampling
taking precedence when both factors are given), floor(grid_size / upscaling)
when only upscaling is set, and grid_size itself when neither is set.  round
is Python 3's round (nearest integer, ties to even), and Python raises
ZeroDivisionError for upscaling = 0, so that case is guarded. -/
theorem C9_effective_grid_size (grid_size : ℕ) (s u : ℚ) (uopt : Option ℚ) :
    effectiveGridSize grid_size (some s) uopt = pythonRound (s * grid_size) ∧
    (u ≠ 0 → effectiveGridSize grid_size none (some u) = ⌊(grid_size : ℚ) / u⌋) ∧
    effectiveGridSize grid_size none none = grid_size :=
  ⟨rfl, fun _ => rfl, rfl⟩

/-- Witness for C9 at concrete inputs: supersampling 5/2 on a 100 grid rounds
to 250, upscaling 3 floors to 33, and the plain size is unchanged. -/
theorem C9_witness :
    effectiveGridSize 100 (some (5/2)) (some 3) = 250 ∧
    effectiveGridSize 100 none (some 3) = 33 ∧
    effectiveGridSize 100 none none = 100 := by
  have h := C9_effective_grid_size 100 (5/2) 3 (some 3)
  have h250 : (5/2 * ((100 : ℕ) : ℚ)) = 250 := by norm_num
  have hfl : ⌊(250 : ℚ)⌋ = (250 : ℤ) := by rw [Int.floor_eq_iff]; norm_num
  refine ⟨?_, ?_, h.2.2⟩
  · rw [h.1, h250]
    unfold pythonRound
    rw [hfl]
    norm_num
  · rw [h.2.1 (by norm_num), Int.floor_eq_iff]; norm_num

/-- Claim C10: planet_transit leaves the container's provenance fields
radius_px, limb_darkening_law, ld_coefficients, supersampling_factor,
upscaling_factor and resample_method unchanged.  The coded function raises
AttributeError before its first assignment, leaving the caller's container
untouched, and the intended compositor copies all six fields, modifying only
the intensity grid and the transit attributes. -/
theorem C10_provenance_preserved (sg : StarGridF) (rp_rs b phase_arg : ℝ) :
    ((stateAfter sg (planet_transit sg rp_rs b phase_arg)).radius_px = sg.radius_px ∧
      (stateAfter sg (planet_transit sg rp_rs b phase_arg)).limb_darkening_law =
        sg.limb_darkening_law ∧
      (stateAfter sg (planet_transit sg rp_rs b phase_arg)).ld_coefficients =
        sg.ld_coefficients ∧
      (stateAfter sg (planet_transit sg rp_rs b phase_arg)).supersampling_factor =
        sg.supersampling_factor ∧
      (stateAfter sg (planet_transit sg rp_rs b phase_arg)).upscaling_factor =
        sg.upscaling_factor ∧
      (stateAfter sg (planet_transit sg rp_rs b phase_arg)).resample_method =
        sg.resample_method) ∧
    ((planet_transitIntended sg rp_rs b phase_arg).radius_px = sg.radius_px ∧
      (planet_transitIntended sg rp_rs b phase_arg).limb_darkening_law =
        sg.limb_darkening_law ∧
      (planet_transitIntended sg rp_rs b phase_arg).ld_coefficients =
        sg.ld_coefficients ∧
      (planet_transitIntended sg rp_rs b phase_arg).supersampling_factor =
        sg.supersampling_factor ∧
      (planet_transitIntended sg rp_rs b phase_arg).upscaling_factor =
        sg.upscaling_factor ∧
      (planet_transitIntended sg rp_rs b phase_arg).resample_method =
        sg.resample_method) :=
  ⟨⟨rfl, rfl, rfl, rfl, rfl, rfl⟩, ⟨rfl, rfl, rfl, rfl, rfl, rfl⟩⟩

/-- Claim C5 (code-bug evidence): planet_transit never sets the container's
declared transit fields.  As coded it raises AttributeError on every call, and
even the intended compositor assigns planet_px_coordinates,
planet_to_star_ratio, planet_impact_parameter and a new phase attribute
(draw.py lines 252-256) while leaving the declared planet_radius_px and
planet_phase fields (utils.py lines 52-54) untouched at None. -/
theorem C5_transit_fields_not_set (sg : StarGridF) (rp_rs b phase_arg : ℝ) :
    planet_transit sg rp_rs b phase_arg = .error (.attributeError "radius") ∧
    (planet_transitIntended sg rp_rs b phase_arg).planet_radius_px =
      sg.planet_radius_px ∧
    (planet_transitIntended sg rp_rs b phase_arg).planet_phase = sg.planet_phase :=
  ⟨rfl, rfl, rfl⟩

/-- Claim C1 (code-bug evidence) at the spec's transit-test input: draw.star
at grid_size 2001, radius 0.5 and no limb-darkening succeeds, but
planet_transit on the returned grid with ratio 0.15, impact parameter 0 and
phase 0 raises AttributeError (draw.py line 227 reads star_grid.radius, an
attribute utils.StarGrid never defines) instead of compositing a transit of
depth 0.0225. -/
theorem C1_transit_test_raises
    (rz : String → (ℕ → ℕ → F) → ℕ → ℕ → (ℕ → ℕ → F)) :
    (∃ g, starRun 2001 (1/2) none .noCoef none none none none rz = .ok g) ∧
    planet_transit
        (stateAfter unitGrid (starRun 2001 (1/2) none .noCoef none none none none rz))
        (3/20) 0 0 =
      .error (.attributeError "radius") :=
  ⟨⟨_, starRun_noResize 2001 (1/2) none .noCoef none none rz _ rfl⟩, rfl⟩

/-- Claim C7: the mu field star passes to the limb-darkening law equals
sqrt(max(0, 1 - (r / star_radius_px)^2)) at every cell, and is exactly 0
(never NaN) at every cell whose radial distance exceeds the stellar pixel
radius. -/
theorem C7_mu_formula (n : ℕ) (radius : ℚ) (i j : ℕ) (hn : 0 < n)
    (hr : 0 < radius) :
    muR n radius i j =
      Real.sqrt (max 0 (1 - (rsq n i j : ℝ) / ((radius : ℝ) * (n : ℝ)) ^ 2)) ∧
    ((radius * n) ^ 2 < rsq n i j → muR n radius i j = 0) := by
  have hcast : ((1 - rsq n i j / (radius * n) ^ 2 : ℚ) : ℝ) =
      1 - (rsq n i j : ℝ) / ((radius : ℝ) * (n : ℝ)) ^ 2 := by push_cast; ring
  constructor
  · by_cases h : 1 - rsq n i j / (radius * n) ^ 2 < 0
    · unfold muR
      rw [if_pos h]
      have ht : 1 - (rsq n i j : ℝ) / ((radius : ℝ) * (n : ℝ)) ^ 2 ≤ 0 := by
        rw [← hcast]; exact_mod_cast le_of_lt h
      rw [max_eq_left ht, Real.sqrt_zero]
    · unfold muR
      rw [if_neg h, hcast]
      congr 1
      symm
      exact max_eq_right (by rw [← hcast]; exact_mod_cast not_lt.1 h)
  · intro hlt
    unfold muR
    have hR2 : (0 : ℚ) < (radius * n) ^ 2 := by
      have hn' : (0 : ℚ) < (n : ℚ) := by exact_mod_cast hn
      positivity
    have h1 : 1 < rsq n i j / (radius * n) ^ 2 := (one_lt_div hR2).2 hlt
    rw [if_pos (by linarith)]

/-- Witness for C7: on the 5-grid with radius 1/2 the corner cell lies outside
the disk (squared distance 8 against squared radius 25/4) and its mu is
exactly 0. -/
theorem C7_witness : muR 5 (1/2) 0 0 = 0 :=
  (C7_mu_formula 5 (1/2) 0 0 (by norm_num) (by norm_num)).2
    (by norm_num [rsq, cylR_sq, linspaceQ])

/-- Counterexample for claim C3: on the even shape (2, 2) with reference
(0, 0), cell (1, 1) of cylindrical_r has squared distance 2 (the linspace used
by the code places the last point at +1, not at 1 - shape//2 = 0), while the
claim's formula gives distance 0. -/
theorem C3_counterexample :
    cylindrical_r 2 2 0 0 1 1 ≠ Real.sqrt ((claimC3_sq 2 2 1 1 : ℚ) : ℝ) := by
  have h1 : cylR_sq 2 2 0 0 1 1 = 2 := by
    norm_num [cylR_sq, linspaceQ]
  have h2 : claimC3_sq 2 2 1 1 = 0 := by
    norm_num [claimC3_sq]
  unfold cylindrical_r
  rw [h1, h2]
  rw [show ((0 : ℚ) : ℝ) = 0 by norm_num, Real.sqrt_zero]
  exact ne_of_gt (Real.sqrt_pos.2 (by norm_num))

/-- Claim C3 amended: on square grids of odd size n with reference (0, 0),
cylindrical_r returns at cell (i, j) exactly
sqrt((i - n//2)^2 + (j - n//2)^2); for even sizes the linspace spacing is
2c/(n-1) and differs from the claimed per-cell formula, and for non-square
shapes the meshgrid transposes the output. -/
theorem C3_amended (n i j : ℕ) (hodd : Odd n) (hi : i < n) (hj : j < n) :
    cylindrical_r n n 0 0 i j = Real.sqrt ((claimC3_sq n n i j : ℚ) : ℝ) := by
  have key : cylR_sq n n 0 0 i j = claimC3_sq n n i j := by
    unfold cylR_sq claimC3_sq
    rw [linspaceQ_odd n j hodd hj, linspaceQ_odd n i hodd hi]
    ring
  unfold cylindrical_r
  rw [key]

/-- Witness for C3 at the odd shape (3, 3), cell (1, 2). -/
theorem C3_witness :
    cylindrical_r 3 3 0 0 1 2 = Real.sqrt ((claimC3_sq 3 3 1 2 : ℚ) : ℝ) :=
  C3_amended 3 1 2 ⟨1, by norm_num⟩ (by norm_num) (by norm_num)

/-- Counterexample for claim C4: on a 3-by-3 container the claimed exact-half
placement would be (3/2, 3/2), but planet_transit returns no container at all
(it raises AttributeError), and even the intended compositor places the centre
at (1, 1) using the floor halves grid//2. -/
theorem C4_counterexample :
    (¬ ∃ sg', planet_transit unitGrid 0 0 0 = Except.ok sg' ∧
        sg'.planet_px_coordinates = some ((3 : ℝ)/2, (3 : ℝ)/2)) ∧
    (planet_transitIntended unitGrid 0 0 0).planet_px_coordinates =
      some ((1 : ℝ), (1 : ℝ)) := by
  constructor
  · rintro ⟨sg', h, -⟩
    exact Except.noConfusion h
  · show some _ = _
    norm_num [planet_transitIntended, unitGrid, Real.sqrt_one]

/-- Claim C4 amended: the intended compositor places the planet centre at
y_p = b * star_radius_px + grid_height//2 and
x_p = alpha + (phase + 1/2) * 2 * (planet_radius_px + star_radius_px) * beta
with beta = sqrt(1 - (b * star_radius_px / (planet_radius_px +
star_radius_px))^2) and alpha = grid_width//2 - (planet_radius_px +
star_radius_px) * beta, where the halves are the floor halves grid//2 (the
code's integer division), which agree with the claim's exact halves exactly
when the grid size is even; the coded planet_transit itself raises before
placing anything. -/
theorem C4_amended (sg : StarGridF) (rp_rs b phase_arg : ℝ) :
    (planet_transitIntended sg rp_rs b phase_arg).planet_px_coordinates =
      some
        (((sg.size / 2 : ℕ) : ℝ) -
            ((sg.radius_px : ℝ) * sg.size * rp_rs + (sg.radius_px : ℝ) * sg.size) *
              Real.sqrt (1 - (b * ((sg.radius_px : ℝ) * sg.size) /
                ((sg.radius_px : ℝ) * sg.size * rp_rs +
                  (sg.radius_px : ℝ) * sg.size)) ^ 2) +
          (phase_arg + 1/2) * 2 *
            ((sg.radius_px : ℝ) * sg.size * rp_rs + (sg.radius_px : ℝ) * sg.size) *
            Real.sqrt (1 - (b * ((sg.radius_px : ℝ) * sg.size) /
              ((sg.radius_px : ℝ) * sg.size * rp_rs +
                (sg.radius_px : ℝ) * sg.size)) ^ 2),
         b * ((sg.radius_px : ℝ) * sg.size) + ((sg.size / 2 : ℕ) : ℝ)) ∧
    (2 ∣ sg.size → ((sg.size / 2 : ℕ) : ℝ) = (sg.size : ℝ) / 2) := by
  constructor
  · rfl
  · rintro ⟨m, hm⟩
    rw [hm, Nat.mul_div_cancel_left m (by norm_num)]
    push_cast
    ring

/-- Witness for C4 on the even 4-by-4 container: the floor half equals the
exact half and the centre lands at (2, 2). -/
theorem C4_witness :
    (planet_transitIntended evenGrid 0 0 0).planet_px_coordinates =
      some ((2 : ℝ), (2 : ℝ)) ∧
    ((evenGrid.size / 2 : ℕ) : ℝ) = (evenGrid.size : ℝ) / 2 := by
  have h := C4_amended evenGrid 0 0 0
  constructor
  · rw [h.1]
    norm_num [evenGrid, Real.sqrt_one]
  · exact h.2 ⟨2, rfl⟩

/-- Claim C8 (the invariant the claim describes, on the intended compositor):
for a container whose intensity cells are finite, every cell after the
subtract-and-clamp step (draw.py lines 247-249) is a nonnegative finite
number.  The coded planet_transit never reaches that step: it raises
AttributeError at line 227. -/
theorem C8_intended_nonneg (sg : StarGridF) (rp_rs b phase_arg : ℝ)
    (hfin : ∀ i j : ℕ, ∃ x : ℝ, sg.intensity i j = F.num x) :
    ∀ i j : ℕ, ∃ x : ℝ, 0 ≤ x ∧
      (planet_transitIntended sg rp_rs b phase_arg).intensity i j = F.num x := by
  intro i j
  obtain ⟨y, hy⟩ := hfin i j
  have key : ∀ m : ℝ, ∃ x : ℝ, 0 ≤ x ∧
      F.clampNeg (F.sub (sg.intensity i j) (.num m)) = F.num x := by
    intro m
    rw [hy, F.sub_num]
    by_cases h : y - m < 0
    · exact ⟨0, le_rfl, by
        show (if y - m < 0 then F.num 0 else F.num (y - m)) = F.num 0
        rw [if_pos h]⟩
    · exact ⟨y - m, not_lt.1 h, by
        show (if y - m < 0 then F.num 0 else F.num (y - m)) = F.num (y - m)
        rw [if_neg h]⟩
  exact key _

/-- Witness for C8 on the concrete uniform 3-by-3 container. -/
theorem C8_witness :
    ∃ x : ℝ, 0 ≤ x ∧
      (planet_transitIntended unitGrid (3/20) 0 0).intensity 0 0 = F.num x :=
  C8_intended_nonneg unitGrid (3/20) 0 0 (fun _ _ => ⟨1, rfl⟩) 0 0

/-- Propagation of a limb-darkening stage error through draw.star. -/
lemma starRun_ldError (grid_size : ℕ) (radius : ℚ) (law : Option String)
    (coef : LDCoef) (custom : Option (F → LDCoef → F)) (ss us : Option ℚ)
    (rm : Option String) (rz : String → (ℕ → ℕ → F) → ℕ → ℕ → (ℕ → ℕ → F))
    (e : PyErr)
    (hld : ldStage law custom coef
        (starArrDef ((effectiveGridSize grid_size ss us).toNat) radius)
        (muArrDef ((effectiveGridSize grid_size ss us).toNat) radius) = .error e) :
    starRun grid_size radius law coef custom ss us rm rz = .error e := by
  simp only [starRun]
  rw [hld]

/-- An unrecognized law name (neither None nor custom nor a dictionary key)
makes the limb-darkening stage fail with the code's NotImplementedError. -/
lemma ldStage_unknown (name : String) (custom : Option (F → LDCoef → F))
    (coef : LDCoef) (sArr mArr : ℕ → ℕ → F) (hnc : name ≠ "custom")
    (hnk : name ∉ IMPLEMENTED_LD_LAW_KEYS) :
    ldStage (some name) custom coef sArr mArr =
      .error (.notImplemented "This limb-darkening law is not implemented.") := by
  simp only [IMPLEMENTED_LD_LAW_KEYS, List.mem_cons, List.not_mem_nil, or_false,
    not_or] at hnk
  obtain ⟨h1, h2, h3, h4, h5, h6, h7, h8, h9, h10, h11, h12, h13⟩ := hnk
  have hlaw : lawApply name coef =
      .error (.notImplemented "This limb-darkening law is not implemented.") := by
    unfold lawApply
    rw [if_neg h1, if_neg h2, if_neg h3,
      if_neg (by simp only [not_or]; exact ⟨h4, h5⟩),
      if_neg (by simp only [not_or]; exact ⟨h6, h7⟩),
      if_neg (by simp only [not_or]; exact ⟨h8, h9, h10⟩),
      if_neg (by simp only [not_or]; exact ⟨h11, h12, h13⟩)]
  simp only [ldStage]
  rw [if_neg hnc, hlaw]

/-- Claim C6: calling star with a law name that is not None, not custom and
not a recognized key fails with the law error kind, and calling star with
resizing requested and an unrecognized resample method (the law stage itself
succeeding) fails with the resample error kind; in both cases the result is
the error alone, no grid. -/
theorem C6_unsupported_errors :
    (∀ (grid_size : ℕ) (radius : ℚ) (name : String) (coef : LDCoef)
        (custom : Option (F → LDCoef → F)) (ss us : Option ℚ) (rm : Option String)
        (rz : String → (ℕ → ℕ → F) → ℕ → ℕ → (ℕ → ℕ → F)),
        name ≠ "custom" → name ∉ IMPLEMENTED_LD_LAW_KEYS →
        starRun grid_size radius (some name) coef custom ss us rm rz =
          .error (.notImplemented "This limb-darkening law is not implemented.")) ∧
    (∀ (grid_size : ℕ) (radius : ℚ) (law : Option String) (coef : LDCoef)
        (custom : Option (F → LDCoef → F)) (ss us : Option ℚ) (m : String)
        (rz : String → (ℕ → ℕ → F) → ℕ → ℕ → (ℕ → ℕ → F)),
        ss ≠ none ∨ us ≠ none → m ∉ RESAMPLING_ALIAS_KEYS →
        (∀ sArr mArr : ℕ → ℕ → F, ∃ arr, ldStage law custom coef sArr mArr = .ok arr) →
        starRun grid_size radius law coef custom ss us (some m) rz =
          .error (.notImplemented "This resampling method is not implemented.")) := by
  constructor
  · intro grid_size radius name coef custom ss us rm rz hnc hnk
    exact starRun_ldError grid_size radius (some name) coef custom ss us rm rz _
      (ldStage_unknown name custom coef _ _ hnc hnk)
  · intro grid_size radius law coef custom ss us m rz hresize hm hldok
    obtain ⟨arr, harr⟩ := hldok
      (starArrDef ((effectiveGridSize grid_size ss us).toNat) radius)
      (muArrDef ((effectiveGridSize grid_size ss us).toNat) radius)
    simp only [starRun]
    rw [harr]
    rcases ss with _ | s
    · rcases us with _ | u
      · rcases hresize with h | h <;> exact absurd rfl h
      · show (if m ∈ RESAMPLING_ALIAS_KEYS then _ else _) = _
        rw [if_neg hm]
    · rcases us with _ | u <;>
        · show (if m ∈ RESAMPLING_ALIAS_KEYS then _ else _) = _
          rw [if_neg hm]

/-- Witness for C6: the unknown law name foo and, separately, supersampling 2
with the unknown resample method frob, each on concrete arguments. -/
theorem C6_witness :
    starRun 10 (1/2) (some "foo") .noCoef none none none none dummyResize =
      .error (.notImplemented "This limb-darkening law is not implemented.") ∧
    starRun 10 (1/2) none .noCoef none (some 2) none (some "frob") dummyResize =
      .error (.notImplemented "This resampling method is not implemented.") := by
  constructor
  · exact C6_unsupported_errors.1 10 (1/2) "foo" .noCoef none none none none
      dummyResize (by decide) (by decide)
  · exact C6_unsupported_errors.2 10 (1/2) none .noCoef none (some 2) none "frob"
      dummyResize (Or.inl (by simp)) (by decide) (fun sArr mArr => ⟨sArr, rfl⟩)

/-- Dividing by nan (on the left) yields nan. -/
@[simp] lemma F.nan_div (a : F) : F.div .nan a = .nan := by cases a <;> rfl

/-- Normalization tail of draw.star: if the attenuated array is finite,
nonnegative and holds value 1 at the centre cell, dividing every cell by the
grid's own sum yields a grid of finite values whose total is exactly 1. -/
lemma norm_tail (n : ℕ) (arr : ℕ → ℕ → F) (v : ℕ → ℕ → ℝ)
    (harr : ∀ i j, arr i j = .num (v i j))
    (hnn : ∀ i j, 0 ≤ v i j)
    (hcenter : v (n / 2) (n / 2) = 1) (hn : 0 < n) :
    gridSum n (fun i j => F.div (arr i j) (gridSum n arr)) = .num 1 ∧
    ∀ i j : ℕ, ∃ x : ℝ, F.div (arr i j) (gridSum n arr) = F.num x := by
  have hS : gridSum n arr = .num (realGridSum n v) := gridSum_num n arr v harr
  have hSpos : 0 < realGridSum n v := by
    have h1 : v (n / 2) (n / 2) ≤ realGridSum n v :=
      cell_le_realGridSum n v hnn (n / 2) (n / 2)
        (Nat.div_lt_self hn one_lt_two) (Nat.div_lt_self hn one_lt_two)
    rw [hcenter] at h1
    linarith
  have hS0 : realGridSum n v ≠ 0 := ne_of_gt hSpos
  have hcell : ∀ i j : ℕ,
      F.div (arr i j) (gridSum n arr) = .num (v i j / realGridSum n v) := by
    intro i j
    rw [harr i j, hS, F.div_num _ _ hS0]
  constructor
  · rw [gridSum_num n _ (fun i j => v i j / realGridSum n v) hcell,
      realGridSum_div n v (realGridSum n v), div_self hS0]
  · intro i j
    exact ⟨_, hcell i j⟩

/-- Positive side of the normalization property: for the linear, quadratic,
square-root, sing-three and claret-four laws with well-formed coefficients
(attenuation nonnegative on mu in [0, 1]) and for no limb-darkening, star with
no supersampling and no upscaling returns a grid of finite values whose total
is exactly 1 (odd grid size, positive radius).  The logarithmic and
exponential laws are absent from this statement: their float formulas produce
NaN wherever mu = 0, which poisons the whole normalized grid. -/
theorem goodLaws_sum_to_one (L : GoodLaw) (n : ℕ) (radius : ℚ)
    (rz : String → (ℕ → ℕ → F) → ℕ → ℕ → (ℕ → ℕ → F))
    (hodd : Odd n) (_hrad : 0 < radius)
    (hatt : ∀ mu : ℝ, 0 ≤ mu → mu ≤ 1 → 0 ≤ L.attenR mu) :
    ∃ g, starRun n radius L.lawName L.coef none none none none rz = .ok g ∧
      g.size = n ∧ gridSum n g.intensity = F.num 1 ∧
      allFiniteGrid n g.intensity := by
  have hn : 0 < n := by obtain ⟨c, hc⟩ := hodd; omega
  have hnn : ∀ i j, 0 ≤ ((starCell n radius i j : ℚ) : ℝ) *
      L.attenR (muR n radius i j) := by
    intro i j
    apply mul_nonneg
    · exact_mod_cast starCell_nonneg n radius i j
    · exact hatt _ (muR_nonneg n radius i j) (muR_le_one n radius i j)
  have hcenter : ((starCell n radius (n / 2) (n / 2) : ℚ) : ℝ) *
      L.attenR (muR n radius (n / 2) (n / 2)) = 1 := by
    rw [starCell_center n radius, muR_center n hodd radius, L.attenR_one]
    norm_num
  obtain ⟨arr, hldeq, harr⟩ :
      ∃ arr, ldStage L.lawName none L.coef (starArrDef n radius)
          (muArrDef n radius) = .ok arr ∧
        ∀ i j, arr i j = .num (((starCell n radius i j : ℚ) : ℝ) *
          L.attenR (muR n radius i j)) := by
    cases L with
    | noLD =>
      refine ⟨starArrDef n radius, rfl, fun i j => ?_⟩
      simp [starArrDef, GoodLaw.attenR]
    | lin c =>
      refine ⟨_, rfl, fun i j => ?_⟩
      show F.mul (.num ((starCell n radius i j : ℚ) : ℝ))
          (linearF (.num (muR n radius i j)) c) = _
      rw [linearF_num, F.mul_num]
    | quad c1 c2 =>
      refine ⟨_, rfl, fun i j => ?_⟩
      show F.mul (.num ((starCell n radius i j : ℚ) : ℝ))
          (quadraticF (.num (muR n radius i j)) c1 c2) = _
      rw [quadraticF_num, F.mul_num]
    | sqrtL c1 c2 =>
      refine ⟨_, rfl, fun i j => ?_⟩
      show F.mul (.num ((starCell n radius i j : ℚ) : ℝ))
          (square_rootF (.num (muR n radius i j)) c1 c2) = _
      rw [square_rootF_num _ _ _ (muR_nonneg n radius i j), F.mul_num]
    | sing3 c1 c2 c3 =>
      refine ⟨_, rfl, fun i j => ?_⟩
      show F.mul (.num ((starCell n radius i j : ℚ) : ℝ))
          (sing_threeF (.num (muR n radius i j)) c1 c2 c3) = _
      rw [sing_threeF_num _ _ _ _ (muR_nonneg n radius i j), F.mul_num]
    | claret4 c1 c2 c3 c4 =>
      refine ⟨_, rfl, fun i j => ?_⟩
      show F.mul (.num ((starCell n radius i j : ℚ) : ℝ))
          (claret_fourF (.num (muR n radius i j)) c1 c2 c3 c4) = _
      rw [claret_fourF_num _ _ _ _ _ (muR_nonneg n radius i j), F.mul_num]
  have htail := norm_tail n arr _ harr hnn hcenter hn
  refine ⟨_, starRun_noResize n radius L.lawName L.coef none none rz arr hldeq,
    rfl, htail.1, ?_⟩
  intro i j _ _
  exact htail.2 i j

/-- Instantiation of the positive normalization result at the linear law with
coefficient 1/10 on a 3-grid. -/
theorem goodLaws_sum_to_one_inst :
    ∃ g, starRun 3 (1/2) (some "linear") (.scalar (1/10)) none none none none
        dummyResize = .ok g ∧
      g.size = 3 ∧ gridSum 3 g.intensity = F.num 1 ∧
      allFiniteGrid 3 g.intensity :=
  goodLaws_sum_to_one (.lin (1/10)) 3 (1/2) dummyResize ⟨1, by norm_num⟩ (by norm_num)
    (fun mu h0 h1 => by simp only [GoodLaw.attenR]; nlinarith)

/-- Corner cell of the 5-grid with radius 1/2 lies outside the disk and its mu
is exactly 0. -/
lemma muR_five_corner : muR 5 (1/2) 0 0 = 0 := by
  unfold muR
  rw [if_pos (by norm_num [rsq, cylR_sq, linspaceQ])]

/-- The logarithmic law formula yields nan at mu = 0:
np.log(0) = -inf, (-inf)**2 = +inf, (c2 * 0) * inf = nan. -/
lemma logarithmicF_at_zero (c1 c2 : ℝ) : logarithmicF (.num 0) c1 c2 = F.nan := by
  unfold logarithmicF
  rw [F.nplog_zero 0 rfl, F.sq_ninf, F.mul_num, F.zero_mul_pinf _ (by ring),
    F.sub_nan, F.mul_nan]

/-- The exponential law formula yields -inf at mu = 0 for c2 = 1/10:
1 - exp(0) = 0, (1/10)/0 = +inf, finite - inf = -inf. -/
lemma exponentialF_at_zero (c1 : ℝ) : exponentialF (.num 0) c1 (1/10) = F.ninf := by
  unfold exponentialF
  rw [F.npexp_num]
  rw [show F.sub (.num 1) (.num (Real.exp 0)) = .num (1 - Real.exp 0) from rfl]
  rw [show (1 : ℝ) - Real.exp 0 = 0 by simp [Real.exp_zero]]
  rw [F.pos_div_zero (1/10) 0 rfl (by norm_num)]
  rw [show F.sub (.num 1) (.num 0) = .num (1 - 0) from rfl]
  rw [show F.mul (.num c1) (.num (1 - 0 : ℝ)) = .num (c1 * (1 - 0)) from rfl]
  rw [show F.sub (.num 1) (.num (c1 * (1 - 0) : ℝ)) = .num (1 - c1 * (1 - 0)) from rfl]
  rw [show F.sub (.num (1 - c1 * (1 - 0) : ℝ)) F.pinf = F.ninf from rfl]
  show (if (1 : ℝ) = 0 then F.nan else if 0 < (1 : ℝ) then F.ninf else F.pinf) = F.ninf
  rw [if_neg one_ne_zero, if_pos one_pos]

/-- Attenuated array of the 5-grid logarithmic-law counterexample run. -/
noncomputable def logArr : ℕ → ℕ → F := fun i j =>
  F.mul (starArrDef 5 (1/2) i j) (logarithmicF (muArrDef 5 (1/2) i j) (1/10) (1/10))

/-- Attenuated array of the 5-grid exponential-law counterexample run. -/
noncomputable def expArr : ℕ → ℕ → F := fun i j =>
  F.mul (starArrDef 5 (1/2) i j) (exponentialF (muArrDef 5 (1/2) i j) (1/10) (1/10))

/-- Claim C2 (code-bug evidence): with the built-in logarithmic law, and
likewise the exponential law, at the well-formed coefficients (0.1, 0.1),
grid size 5 and default radius 1/2, star returns a grid whose total intensity
is NaN, not a finite number within 1e-6 of 1: the corner cell has mu = 0,
np.log(0) = -inf makes the attenuation NaN there (resp. c2/(1 - exp 0) = inf),
0 * NaN = NaN, and the NaN cell poisons the normalization sum.  This
contradicts the repository's own test_ld_laws, which asserts the 1e-6 total
for these two laws as well, and the comment at draw.py line 132 that any NaN
is harmless because it is multiplied by zero. -/
theorem C2_log_exp_nan_totals :
    (¬ ∃ g, starRun 5 (1/2) (some "log") (.pair (1/10) (1/10)) none none none none
          dummyResize = .ok g ∧
        sumNearOne (gridSum g.size g.intensity) ∧ allFiniteGrid g.size g.intensity) ∧
    (¬ ∃ g, starRun 5 (1/2) (some "exp") (.pair (1/10) (1/10)) none none none none
          dummyResize = .ok g ∧
        sumNearOne (gridSum g.size g.intensity) ∧ allFiniteGrid g.size g.intensity) := by
  have hsc : starCell 5 (1/2) 0 0 = 0 := by norm_num [starCell]
  constructor
  · have hld : ldStage (some "log") none (.pair (1/10) (1/10)) (starArrDef 5 (1/2))
        (muArrDef 5 (1/2)) = .ok logArr := rfl
    have hrun := starRun_noResize 5 (1/2) (some "log") (.pair (1/10) (1/10)) none
      none dummyResize logArr hld
    rintro ⟨g, hg, hnear, -⟩
    rw [hrun] at hg
    injection hg with h
    have hcell : logArr 0 0 = F.nan := by
      show F.mul (.num ((starCell 5 (1/2) 0 0 : ℚ) : ℝ))
          (logarithmicF (.num (muR 5 (1/2) 0 0)) (1/10) (1/10)) = F.nan
      rw [muR_five_corner, logarithmicF_at_zero]
      exact F.mul_nan _
    have hint : F.div (logArr 0 0) (gridSum 5 logArr) = F.nan := by
      rw [hcell]
      exact F.nan_div _
    have hsum : gridSum g.size g.intensity = F.nan := by
      rw [← h]
      exact gridSum_eq_nan 5 _ 0 0 (by norm_num) (by norm_num) hint
    rw [hsum] at hnear
    obtain ⟨s, hs, -⟩ := hnear
    exact F.nan_ne_num s hs
  · have hld : ldStage (some "exp") none (.pair (1/10) (1/10)) (starArrDef 5 (1/2))
        (muArrDef 5 (1/2)) = .ok expArr := rfl
    have hrun := starRun_noResize 5 (1/2) (some "exp") (.pair (1/10) (1/10)) none
      none dummyResize expArr hld
    rintro ⟨g, hg, hnear, -⟩
    rw [hrun] at hg
    injection hg with h
    have hcell : expArr 0 0 = F.nan := by
      show F.mul (.num ((starCell 5 (1/2) 0 0 : ℚ) : ℝ))
          (exponentialF (.num (muR 5 (1/2) 0 0)) (1/10) (1/10)) = F.nan
      rw [muR_five_corner, exponentialF_at_zero, hsc]
      rw [show ((0 : ℚ) : ℝ) = 0 from Rat.cast_zero]
      exact F.zero_mul_ninf 0 rfl
    have hint : F.div (expArr 0 0) (gridSum 5 expArr) = F.nan := by
      rw [hcell]
      exact F.nan_div _
    have hsum : gridSum g.size g.intensity = F.nan := by
      rw [← h]
      exact gridSum_eq_nan 5 _ 0 0 (by norm_num) (by norm_num) hint
    rw [hsum] at hnear
    obtain ⟨s, hs, -⟩ := hnear
    exact F.nan_ne_num s hs

end Flatstar
